import Mathlib

/-!
Verification of the field-resolution core of the ACK code generator
(a-hilaly/ack-code-generator).

The repository's visible Go source exposes the configuration schema
(`pkg/generate/config/field.go`: `SourceFieldConfig`, `CompareFieldConfig`,
`PrintFieldConfig`, `LateInitializeConfig`, `FieldConfig`) and a generated
shapes file.  The resolution engine itself (Field Lineage Resolver, Type
Reconciler, Field Classifier, Policy Attachers) is not part of the visible
source; the spec describes it in detail, so those components are modelled
from the spec below and each such definition says so in its doc comment.
-/

/-- A role a shape plays in an operation: either the operation's input
shape or its output shape. -/
inductive Role where
  | input
  | output
deriving DecidableEq, Repr

mutual

/-- A structural type descriptor: a named scalar type, or a record of
named, typed members.  Modelled from the spec: "Shape: identifier, ordered
set of Members; Members have (name, type descriptor, required flag)" and
the nested member structure shown in the `Code` example of
`SourceFieldConfig`'s documentation in `pkg/generate/config/field.go`. -/
inductive TDesc where
  | scalar (name : String)
  | record (members : Members)
deriving Repr

/-- An ordered list of named, typed members, each with a required flag.
Modelled from the spec: "Members have (name, type descriptor, required
flag)". -/
inductive Members where
  | nil
  | cons (name : String) (tdesc : TDesc) (required : Bool) (rest : Members)
deriving Repr

end

mutual

/-- Structural boolean equality on type descriptors. -/
def TDesc.beq : TDesc → TDesc → Bool
  | .scalar a, .scalar b => a == b
  | .record ms, .record ns => Members.beq ms ns
  | .scalar _, .record _ => false
  | .record _, .scalar _ => false

/-- Structural boolean equality on member lists. -/
def Members.beq : Members → Members → Bool
  | .nil, .nil => true
  | .cons n1 t1 r1 rest1, .cons n2 t2 r2 rest2 =>
      n1 == n2 && TDesc.beq t1 t2 && (r1 == r2) && Members.beq rest1 rest2
  | .nil, .cons _ _ _ _ => false
  | .cons _ _ _ _, .nil => false

end

mutual

theorem tdesc_eq_of_beq : ∀ {a b : TDesc}, TDesc.beq a b = true → a = b
  | .scalar _, .scalar _, h => by
      simp only [TDesc.beq, beq_iff_eq] at h
      simp [h]
  | .scalar _, .record _, h => by simp [TDesc.beq] at h
  | .record _, .scalar _, h => by simp [TDesc.beq] at h
  | .record ms, .record ns, h => by
      simp only [TDesc.beq] at h
      exact congrArg TDesc.record (members_eq_of_beq h)

theorem members_eq_of_beq : ∀ {a b : Members}, Members.beq a b = true → a = b
  | .nil, .nil, _ => rfl
  | .nil, .cons _ _ _ _, h => by simp [Members.beq] at h
  | .cons _ _ _ _, .nil, h => by simp [Members.beq] at h
  | .cons n1 t1 r1 rest1, .cons n2 t2 r2 rest2, h => by
      simp only [Members.beq, Bool.and_eq_true, beq_iff_eq] at h
      obtain ⟨⟨⟨hn, ht⟩, hr⟩, hrest⟩ := h
      have ht' := tdesc_eq_of_beq ht
      have hrest' := members_eq_of_beq hrest
      subst hn; subst ht'; subst hr; subst hrest'
      rfl

end

mutual

theorem tdesc_beq_refl : ∀ a : TDesc, TDesc.beq a a = true
  | .scalar s => by simp [TDesc.beq]
  | .record ms => by
      simp only [TDesc.beq]
      exact members_beq_refl ms

theorem members_beq_refl : ∀ a : Members, Members.beq a a = true
  | .nil => rfl
  | .cons n t r rest => by
      simp [Members.beq, tdesc_beq_refl t, members_beq_refl rest]

end

instance : DecidableEq TDesc := fun a b =>
  if h : TDesc.beq a b = true then .isTrue (tdesc_eq_of_beq h)
  else .isFalse fun e => h (e ▸ tdesc_beq_refl a)

instance : DecidableEq Members := fun a b =>
  if h : Members.beq a b = true then .isTrue (members_eq_of_beq h)
  else .isFalse fun e => h (e ▸ members_beq_refl a)

/-- A named shape: an identifier and an ordered set of named, typed
members.  Modelled from the spec: "Shape: identifier, ordered set of
Members".  Immutable once loaded. -/
structure Shape where
  ident : String
  members : Members
deriving DecidableEq, Repr

/-- An API operation: an identifier and references to an input shape and
an output shape, either of which may be absent.  Modelled from the spec:
"Operation: identifier, reference to an input Shape and an output Shape
(either may be absent, e.g. a delete operation with no output)". -/
structure Operation where
  ident : String
  inputShape : Option Shape
  outputShape : Option Shape
deriving DecidableEq, Repr

/-- One occurrence of a field name in the operation set.  Modelled from
the spec: "FieldOccurrence: (operation id, role ∈ \x7binput, output\x7d, member
name, type descriptor)". -/
structure FieldOccurrence where
  operationID : String
  role : Role
  memberName : String
  tdesc : TDesc
deriving DecidableEq, Repr

/-- Embeds `SourceFieldConfig` of `pkg/generate/config/field.go`: the
operation ID and the dot-separated member path from which a field takes
its type. -/
structure SourceFieldConfig where
  operation : String
  path : String
deriving DecidableEq, Repr

/-- Embeds `CompareFieldConfig` of `pkg/generate/config/field.go`. -/
structure CompareFieldConfig where
  isIgnored : Bool
  nilEqualsZeroValue : Bool
deriving DecidableEq, Repr

/-- Embeds `PrintFieldConfig` of `pkg/generate/config/field.go`. -/
structure PrintFieldConfig where
  name : String
  priority : Int
  index : Int
deriving DecidableEq, Repr

/-- Embeds `LateInitializeConfig` of `pkg/generate/config/field.go`. -/
structure LateInitializeConfig where
  minBackoffSeconds : Int
  maxBackoffSeconds : Int
deriving DecidableEq, Repr

/-- Embeds `FieldConfig` of `pkg/generate/config/field.go`: the per-field
override bundle as the Go schema represents it.  The seven flag directives
other than `IsRequired` are plain Go `bool`s (absent in the configuration
document unmarshals to `false`); `IsRequired` is a `*bool`; the four
policy bundles are nilable pointers.  The default values mirror Go's zero
value for the struct. -/
structure FieldConfig where
  IsAttribute : Bool := false
  IsReadOnly : Bool := false
  IsRequired : Option Bool := none
  IsPrimaryKey : Bool := false
  IsOwnerAccountID : Bool := false
  IsARN : Bool := false
  IsSecret : Bool := false
  IsImmutable : Bool := false
  From : Option SourceFieldConfig := none
  Compare : Option CompareFieldConfig := none
  Print : Option PrintFieldConfig := none
  LateInitialize : Option LateInitializeConfig := none
deriving DecidableEq, Repr

/-- The zero value of `FieldConfig`: what a field with no entry in the
configuration document carries. -/
def emptyFieldConfig : FieldConfig := {}

/-- Modelled from the spec: "OverrideDirective (per field name, all
optional, independently settable)" — the engine-facing view of one
field's override bundle, in which every directive is independently
optional ("every field of OverrideDirective described in §3 is
independently optional and defaults to no override").  The policy bundles
reuse the schema structs of `pkg/generate/config/field.go`. -/
structure OverrideDirective where
  isAttribute : Option Bool := none
  isReadOnly : Option Bool := none
  isRequired : Option Bool := none
  isPrimaryKey : Option Bool := none
  isOwnerAccountID : Option Bool := none
  isARN : Option Bool := none
  isSecret : Option Bool := none
  isImmutable : Option Bool := none
  sourceRedirect : Option SourceFieldConfig := none
  comparePolicy : Option CompareFieldConfig := none
  presentPolicy : Option PrintFieldConfig := none
  lateInitPolicy : Option LateInitializeConfig := none
deriving DecidableEq, Repr

/-- The directive expressing no override at all. -/
def noOverride : OverrideDirective := {}

/-- Modelled from the spec's error taxonomy (§7): UnknownField,
TypeAmbiguity, BadSourceRedirect, ConflictingOverride,
InvalidBackoffBounds; all fatal to the generation run. -/
inductive ResolutionError where
  | UnknownField
  | TypeAmbiguity
  | BadSourceRedirect
  | ConflictingOverride
  | InvalidBackoffBounds
deriving DecidableEq, Repr

/-- Modelled from the spec: the semantic slot of a resolved field,
"slot ∈ \x7bSpec, Status, Ignored\x7d". -/
inductive Slot where
  | spec
  | status
  | ignored
deriving DecidableEq, Repr

/-- Modelled from the spec: "ResolvedField: final output unit — (name,
slot, type descriptor, isAttributeUnpacked, isPrimaryKey,
isOwnerAccountID, isARN, isSecret, isImmutable, isRequired,
comparePolicy, presentPolicy, lateInitPolicy)". -/
structure ResolvedField where
  name : String
  slot : Slot
  tdesc : TDesc
  isAttributeUnpacked : Bool
  isPrimaryKey : Bool
  isOwnerAccountID : Bool
  isARN : Bool
  isSecret : Bool
  isImmutable : Bool
  isRequired : Option Bool
  comparePolicy : Option CompareFieldConfig
  presentPolicy : Option PrintFieldConfig
  lateInitPolicy : Option LateInitializeConfig
deriving DecidableEq, Repr

instance {e a : Type} [DecidableEq e] [DecidableEq a] : DecidableEq (Except e a)
  | .error x, .error y =>
      if h : x = y then .isTrue (congrArg Except.error h)
      else .isFalse fun q => h (Except.error.inj q)
  | .error _, .ok _ => .isFalse fun q => Except.noConfusion q
  | .ok _, .error _ => .isFalse fun q => Except.noConfusion q
  | .ok x, .ok y =>
      if h : x = y then .isTrue (congrArg Except.ok h)
      else .isFalse fun q => h (Except.ok.inj q)

/-- The occurrences contributed by one member list of one shape, in member
declaration order.  Part of the Field Lineage Resolver, modelled from the
spec: "Walks every operation's input and output shape members". -/
def Members.occurrences (opId : String) (role : Role) : Members → List FieldOccurrence
  | .nil => []
  | .cons n t _ rest =>
      { operationID := opId, role := role, memberName := n, tdesc := t } ::
        Members.occurrences opId role rest

/-- The occurrences contributed by one optional shape. -/
def shapeOccurrences (opId : String) (role : Role) : Option Shape → List FieldOccurrence
  | none => []
  | some s => s.members.occurrences opId role

/-- Every field occurrence across the operation set, in operation order,
input shape before output shape, members in declaration order.  Modelled
from the spec (§4.1 Field Lineage Resolver). -/
def allOccurrences (ops : List Operation) : List FieldOccurrence :=
  ops.flatMap fun op =>
    shapeOccurrences op.ident Role.input op.inputShape ++
      shapeOccurrences op.ident Role.output op.outputShape

/-- The lineage of one field name: all of its occurrences across the
operation set.  Modelled from the spec: "resolveLineage(operations) →
map(fieldName → list(FieldOccurrence))", read at one name. -/
def occurrencesOf (ops : List Operation) (nm : String) : List FieldOccurrence :=
  (allOccurrences ops).filter fun o => o.memberName == nm

/-- Looks one member name up in a member list. -/
def Members.lookup : Members → String → Option TDesc
  | .nil, _ => none
  | .cons n t _ rest, nm => if n == nm then some t else rest.lookup nm

/-- Follows the remaining path segments down a type descriptor: each
segment must name a member of the record reached so far.  Modelled from
the spec: "following path (dot-separated member-name segments)";
"Path resolution fails if any segment does not exist on the shape reached
so far". -/
def walkPath : TDesc → List String → Option TDesc
  | t, [] => some t
  | .scalar _, _ :: _ => none
  | .record ms, seg :: rest =>
      match ms.lookup seg with
      | some t => walkPath t rest
      | none => none

/-- Resolves a segment list against an optional shape: the first segment
must name a member of the shape; later segments walk nested records.
Modelled from the spec (§4.2). -/
def resolveInShape (sh : Option Shape) (segs : List String) : Option TDesc :=
  match sh with
  | none => none
  | some s =>
      match segs with
      | [] => none
      | seg :: rest =>
          match s.members.lookup seg with
          | some t => walkPath t rest
          | none => none

/-- Splits a character list at dots, accumulating the current segment in
reverse.  Structurally recursive so that concrete paths evaluate. -/
def splitSegsAux : List Char → List Char → List String
  | [], acc => [String.mk acc.reverse]
  | c :: rest, acc =>
      if c = Char.ofNat 46 then String.mk acc.reverse :: splitSegsAux rest []
      else splitSegsAux rest (c :: acc)

/-- The dot-separated segments of a member path.  Modelled from the spec:
"following path (dot-separated member-name segments)". -/
def pathSegments (p : String) : List String :=
  splitSegsAux p.data []

/-- Finds the operation with the given identifier. -/
def lookupOperation (ops : List Operation) (opId : String) : Option Operation :=
  ops.find? fun op => op.ident == opId

/-- Resolves a `sourceRedirect \x7boperation, path\x7d` to the type descriptor of
the member it reaches, or `none` when the operation does not exist or some
path segment does not resolve.  Modelled from the spec: "the type is taken
only from the member reached by following path (dot-separated member-name
segments) inside the named operation's shapes"; the output shape is
consulted first (the documented use case redirects to a ReadOne output
member), then the input shape. -/
def resolveRedirect (ops : List Operation) (src : SourceFieldConfig) : Option TDesc :=
  match lookupOperation ops src.operation with
  | none => none
  | some op =>
      let segs := pathSegments src.path
      match resolveInShape op.outputShape segs with
      | some t => some t
      | none => resolveInShape op.inputShape segs

/-- The Type Reconciler.  Modelled from the spec (§4.2):
"reconcileType(fieldName, occurrences, override) → TypeDescriptor".  With
a redirect, the type comes only from the redirect target and every other
occurrence is ignored, failing with BadSourceRedirect when the target does
not resolve.  Without one: no occurrence at all is UnknownField (§4.1);
agreeing occurrences yield their common type; structurally divergent
occurrences fail with TypeAmbiguity. -/
def reconcileType (ops : List Operation) (occs : List FieldOccurrence)
    (redirect : Option SourceFieldConfig) : Except ResolutionError TDesc :=
  match redirect with
  | some src =>
      match resolveRedirect ops src with
      | some t => .ok t
      | none => .error .BadSourceRedirect
  | none =>
      match occs with
      | [] => .error .UnknownField
      | o :: rest =>
          if ∀ r ∈ rest, r.tdesc = o.tdesc then .ok o.tdesc
          else .error .TypeAmbiguity

/-- The occurrence-based classification heuristic.  Modelled from the spec
(§4.3 rule 2): only in input shapes → Spec; only in output shapes →
Status; in both → Spec. -/
def heuristicSlot (occs : List FieldOccurrence) : Slot :=
  if occs.any fun o => o.role == Role.input then .spec
  else if occs.any fun o => o.role == Role.output then .status
  else .spec

/-- The Field Classifier.  Modelled from the spec (§4.3): explicit
override first — `isReadOnly` forces Status, and a `sourceRedirect`
defaults to Status unless `isReadOnly` is explicitly false — then the
occurrence heuristic. -/
def classify (occs : List FieldOccurrence) (ov : OverrideDirective) : Slot :=
  if ov.isReadOnly = some true then .status
  else if ov.sourceRedirect.isSome ∧ ov.isReadOnly ≠ some false then .status
  else heuristicSlot occs

/-- The per-field conflicting-override condition.  Modelled from the spec:
"`comparePolicy.isIgnored=true` combined with any presentation override
yields ConflictingOverride" ("ignored plus a comparison or presentation
policy", §7). -/
def hasConflictingOverride (ov : OverrideDirective) : Bool :=
  match ov.comparePolicy with
  | some c => c.isIgnored && ov.presentPolicy.isSome
  | none => false

/-- The Comparison Policy Evaluator.  Modelled from the spec (§4.5): the
override's policy is attached as given; absence means the default
policy. -/
def attachComparePolicy (ov : OverrideDirective) : Option CompareFieldConfig :=
  ov.comparePolicy

/-- The Presentation Policy Attacher.  Modelled from the spec (§4.6):
"Only fields with an explicit `presentPolicy` override participate"; the
policy is attached as given. -/
def attachPresentPolicy (ov : OverrideDirective) : Option PrintFieldConfig :=
  ov.presentPolicy

/-- The Late-Initialization Policy Attacher.  Modelled from the spec
(§4.7): it "carries only the backoff bounds" and "only validates the
bound ordering invariant" — `maxBackoff < minBackoff` is
InvalidBackoffBounds (§7), otherwise the bound pair is attached exactly
as given, with no backoff arithmetic. -/
def attachLateInitPolicy (ov : OverrideDirective) :
    Except ResolutionError (Option LateInitializeConfig) :=
  match ov.lateInitPolicy with
  | none => .ok none
  | some li =>
      if li.maxBackoffSeconds < li.minBackoffSeconds then .error .InvalidBackoffBounds
      else .ok (some li)

/-- The scalar string type to which attribute-unpacked fields resolve.
Modelled from the spec: "`isAttribute` fields always resolve to a
string-like type". -/
def stringType : TDesc := .scalar "string"

/-- Resolves one field: validates the override bundle, reconciles the
type, applies attribute unpacking on top of the reconciled type, chooses
the slot and attaches the policies.  The resource-level singleton flags
(`isPrimaryKey`, `isARN`) are passed in, having been assigned per resource.
Modelled from the spec (§2 control flow, §4.2—§4.7). -/
def resolveField (ops : List Operation) (nm : String) (occs : List FieldOccurrence)
    (ov : OverrideDirective) (pk : Bool) (arn : Bool) :
    Except ResolutionError ResolvedField :=
  if hasConflictingOverride ov then .error .ConflictingOverride
  else
    match attachLateInitPolicy ov with
    | .error e => .error e
    | .ok li =>
        match reconcileType ops occs ov.sourceRedirect with
        | .error e => .error e
        | .ok t0 =>
            .ok { name := nm
                  slot := classify occs ov
                  tdesc := if ov.isAttribute = some true then stringType else t0
                  isAttributeUnpacked := ov.isAttribute = some true
                  isPrimaryKey := pk
                  isOwnerAccountID := ov.isOwnerAccountID = some true
                  isARN := arn
                  isSecret := ov.isSecret = some true
                  isImmutable := ov.isImmutable = some true
                  isRequired := ov.isRequired
                  comparePolicy := attachComparePolicy ov
                  presentPolicy := attachPresentPolicy ov
                  lateInitPolicy := li }

/-- Lower-cases a string character by character.  Structurally recursive
over the character list so that concrete names evaluate. -/
def strLower (s : String) : String :=
  String.mk (s.data.map Char.toLower)

/-- Does a field name match the primary-key naming heuristic for the
given resource: `Name`, `\x7bResource\x7dName` or `\x7bResource\x7dId`,
case-insensitively.  Modelled from the spec (§4.3) and the documentation
of `FieldConfig.IsPrimaryKey` in `pkg/generate/config/field.go`. -/
def matchesPrimaryKeyName (resource : String) (nm : String) : Bool :=
  let lf := strLower nm
  lf == "name" || lf == strLower resource ++ "name" || lf == strLower resource ++ "id"

/-- Does a field name match the ARN naming heuristic: `Arn` or
`\x7bResource\x7dArn`, case-insensitively.  Modelled from the spec (§4.3) and
the documentation of `FieldConfig.IsARN` in
`pkg/generate/config/field.go`. -/
def matchesARNName (resource : String) (nm : String) : Bool :=
  let lf := strLower nm
  lf == "arn" || lf == strLower resource ++ "arn"

/-- First-match-wins assignment of a singleton flag over field names in
shape-declaration order: once a name is assigned, every later heuristic
match is ignored.  Modelled from the spec: "a second heuristic match
after one is already assigned is ignored (first match wins, in
shape-declaration order)". -/
def heuristicAssign (isMatch : String → Bool) (names : List String) : Option String :=
  names.foldl
    (fun acc nm =>
      match acc with
      | some _ => acc
      | none => if isMatch nm then some nm else none)
    none

/-- The field, if any, carrying `isPrimaryKey` for the resource: an
explicit `isPrimaryKey` override disables the heuristic and names the
field itself; otherwise the first field in shape-declaration order whose
name matches the primary-key pattern.  Modelled from the spec (§4.3). -/
def resolvePrimaryKey (resource : String)
    (fields : List (String × OverrideDirective)) : Option String :=
  match fields.find? fun f => f.2.isPrimaryKey = some true with
  | some f => some f.1
  | none => heuristicAssign (matchesPrimaryKeyName resource) (fields.map fun f => f.1)

/-- The field, if any, carrying `isARN` for the resource, by the same
explicit-override-then-first-match rule.  Modelled from the spec
(§4.3). -/
def resolveARN (resource : String)
    (fields : List (String × OverrideDirective)) : Option String :=
  match fields.find? fun f => f.2.isARN = some true with
  | some f => some f.1
  | none => heuristicAssign (matchesARNName resource) (fields.map fun f => f.1)

/-- Looks a field name up in the Override Table, defaulting to no
override.  Modelled from the spec: "a mapping from resource field name to
an optional bundle of directives". -/
def lookupOverride (overrides : List (String × OverrideDirective)) (nm : String) :
    OverrideDirective :=
  match overrides.find? fun f => f.1 == nm with
  | some f => f.2
  | none => noOverride

/-- The resource's field names, deterministically ordered: first
appearance across the operation walk (shape-declaration order), then
override-only names in table order, duplicates erased keeping the first.
Modelled from the spec (§4.1 and §9, shape member declaration order as
the underlying order). -/
def fieldNames (ops : List Operation)
    (overrides : List (String × OverrideDirective)) : List String :=
  ((allOccurrences ops).map (fun o => o.memberName) ++
      overrides.map fun f => f.1).eraseDups

/-- The informational diagnostics of a run: a note whenever an explicit
singleton-flag override replaces a different heuristic match.  Modelled
from the spec: "Heuristic overrides by explicit directives are not
errors; they are recorded as informational diagnostics". -/
def resourceDiagnostics (resource : String)
    (fields : List (String × OverrideDirective)) : List String :=
  (match fields.find? (fun f => f.2.isPrimaryKey = some true),
      heuristicAssign (matchesPrimaryKeyName resource) (fields.map fun f => f.1) with
   | some e, some h =>
      if e.1 = h then []
      else ["info: explicit primary key override replaces heuristic match " ++ h]
   | _, _ => []) ++
  (match fields.find? (fun f => f.2.isARN = some true),
      heuristicAssign (matchesARNName resource) (fields.map fun f => f.1) with
   | some e, some h =>
      if e.1 = h then []
      else ["info: explicit ARN override replaces heuristic match " ++ h]
   | _, _ => [])

/-- Resolves each field name in order, failing on the first error.  The
resource-wide singleton-flag assignments `pk` and `arn` mark the field
they name.  Modelled from the spec (§2 control flow). -/
def resolveEach (ops : List Operation)
    (overrides : List (String × OverrideDirective)) (pk arn : Option String) :
    List String → Except ResolutionError (List ResolvedField)
  | [] => .ok []
  | nm :: rest =>
      match resolveField ops nm (occurrencesOf ops nm) (lookupOverride overrides nm)
          (pk == some nm) (arn == some nm) with
      | .error e => .error e
      | .ok rf =>
          match resolveEach ops overrides pk arn rest with
          | .error e => .error e
          | .ok rfs => .ok (rf :: rfs)

/-- Resolves a whole resource: walks the deterministic field-name list,
assigns the singleton flags once per resource (rejecting two fields both
forced `isPrimaryKey` or both forced `isARN` as ConflictingOverride, §7),
resolves every field, and returns the Resolved Field Set together with
the run's informational diagnostics.  Any error is fatal: no partial
output.  Modelled from the spec (§2 control flow, §5, §7). -/
def resolveResource (resource : String) (ops : List Operation)
    (overrides : List (String × OverrideDirective)) :
    Except ResolutionError (List ResolvedField × List String) :=
  let names := fieldNames ops overrides
  let fields := names.map fun nm => (nm, lookupOverride overrides nm)
  if 2 ≤ (fields.filter fun f => f.2.isPrimaryKey = some true).length then
    .error .ConflictingOverride
  else if 2 ≤ (fields.filter fun f => f.2.isARN = some true).length then
    .error .ConflictingOverride
  else
    match resolveEach ops overrides (resolvePrimaryKey resource fields)
        (resolveARN resource fields) names with
    | .error e => .error e
    | .ok rfs => .ok (rfs, resourceDiagnostics resource fields)

/-- The nested `Code` member type of the Create operation's input shape in
the Lambda-style example documented in `pkg/generate/config/field.go`. -/
def codeInputType : TDesc :=
  .record (.cons "ImageUri" (.scalar "string") false
    (.cons "S3Bucket" (.scalar "string") false .nil))

/-- The structurally different `Code` member type of the ReadOne
operation's output shape in the same example. -/
def codeOutputType : TDesc :=
  .record (.cons "ImageUri" (.scalar "string") false
    (.cons "Location" (.scalar "string") false .nil))

/-- The Create operation's input shape of the example. -/
def createFunctionInput : Shape :=
  { ident := "CreateFunctionRequest"
    members := .cons "Name" (.scalar "string") true
      (.cons "Code" codeInputType false .nil) }

/-- The ReadOne operation's output shape of the example. -/
def getFunctionOutput : Shape :=
  { ident := "GetFunctionResponse"
    members := .cons "Name" (.scalar "string") false
      (.cons "Code" codeOutputType false .nil) }

/-- The Create operation of the example (no output shape). -/
def createFunctionOp : Operation :=
  { ident := "CreateFunction"
    inputShape := some createFunctionInput
    outputShape := none }

/-- The ReadOne operation of the example (no input shape). -/
def getFunctionOp : Operation :=
  { ident := "GetFunction"
    inputShape := none
    outputShape := some getFunctionOutput }

/-- The example's operation set. -/
def sampleOps : List Operation := [createFunctionOp, getFunctionOp]

/-- The documented redirect: take the type from `GetFunction`, member
path `Code.Location`. -/
def codeRedirect : SourceFieldConfig :=
  { operation := "GetFunction", path := "Code.Location" }

/-- The input-shape occurrence of the example's `Code` field. -/
def codeInputOcc : FieldOccurrence :=
  { operationID := "CreateFunction", role := .input
    memberName := "Code", tdesc := codeInputType }

/-- The output-shape occurrence of the example's `Code` field. -/
def codeOutputOcc : FieldOccurrence :=
  { operationID := "GetFunction", role := .output
    memberName := "Code", tdesc := codeOutputType }

/-- C1: a field name whose occurrences across the operation set carry
structurally different type descriptors fails type reconciliation with a
TypeAmbiguity error when no sourceRedirect override exists; when a
sourceRedirect override exists and resolves, reconciliation succeeds and
returns exactly the type descriptor of the member reached by the
redirect's operation and path, ignoring all other occurrences of the
name. -/
theorem claim1_divergent_types_need_redirect
    (ops : List Operation) (occs : List FieldOccurrence)
    (o1 o2 : FieldOccurrence) (h1 : o1 ∈ occs) (h2 : o2 ∈ occs)
    (hne : o1.tdesc ≠ o2.tdesc) :
    reconcileType ops occs none = .error .TypeAmbiguity ∧
    ∀ src t, resolveRedirect ops src = some t →
      reconcileType ops occs (some src) = .ok t := by
  constructor
  · cases occs with
    | nil => cases h1
    | cons o rest =>
        have hnall : ¬ ∀ r ∈ rest, r.tdesc = o.tdesc := by
          intro hall
          have key : ∀ x ∈ o :: rest, x.tdesc = o.tdesc := by
            intro x hx
            rcases List.mem_cons.mp hx with h | h
            · rw [h]
            · exact hall x h
          exact hne ((key o1 h1).trans (key o2 h2).symm)
        simp only [reconcileType]
        rw [if_neg hnall]
  · intro src t hres
    simp only [reconcileType, hres]

/-- Witness for C1 at the documented Lambda-style input: the `Code` field
has divergent input/output types, so reconciliation without an override
is TypeAmbiguity, while the `Code.Location` redirect resolves to the
scalar string type. -/
theorem claim1_witness :
    reconcileType sampleOps (occurrencesOf sampleOps "Code") none =
      .error .TypeAmbiguity ∧
    reconcileType sampleOps (occurrencesOf sampleOps "Code") (some codeRedirect) =
      .ok (.scalar "string") :=
  ⟨(claim1_divergent_types_need_redirect sampleOps (occurrencesOf sampleOps "Code")
      codeInputOcc codeOutputOcc (by decide) (by decide) (by decide)).1,
   (claim1_divergent_types_need_redirect sampleOps (occurrencesOf sampleOps "Code")
      codeInputOcc codeOutputOcc (by decide) (by decide) (by decide)).2
     codeRedirect (.scalar "string") (by decide)⟩

/-- C2: with a sourceRedirect present, reconciliation fails with a
BadSourceRedirect error exactly when the redirect does not resolve — in
particular whenever the named operation does not exist in the operation
set, and by definition of `resolveRedirect`, `resolveInShape` and
`walkPath` exactly when some dot-separated path segment fails to name a
member of the shape reached by the preceding segments — and otherwise
the field's type descriptor is exactly that of the member reached. -/
theorem claim2_redirect_resolution
    (ops : List Operation) (occs : List FieldOccurrence) (src : SourceFieldConfig) :
    (reconcileType ops occs (some src) = .error .BadSourceRedirect ↔
      resolveRedirect ops src = none) ∧
    (lookupOperation ops src.operation = none → resolveRedirect ops src = none) ∧
    ∀ t, resolveRedirect ops src = some t →
      reconcileType ops occs (some src) = .ok t := by
  refine ⟨⟨?_, ?_⟩, ?_, ?_⟩
  · intro h
    cases hres : resolveRedirect ops src with
    | none => rfl
    | some t => simp [reconcileType, hres] at h
  · intro h
    simp only [reconcileType, h]
  · intro h
    simp only [resolveRedirect, h]
  · intro t h
    simp only [reconcileType, h]

/-- C3: slot classification gives highest precedence to explicit
overrides: `isReadOnly` set forces the Status slot, and an override
supplying a sourceRedirect yields the Status slot unless `isReadOnly` is
explicitly false; both hold for every occurrence list, so they take
precedence over any occurrence-based heuristic. -/
theorem claim3_override_precedence
    (occs : List FieldOccurrence) (ov : OverrideDirective) :
    (ov.isReadOnly = some true → classify occs ov = .status) ∧
    (ov.sourceRedirect.isSome = true → ov.isReadOnly ≠ some false →
      classify occs ov = .status) := by
  constructor
  · intro h
    simp [classify, h]
  · intro hs hnf
    by_cases hro : ov.isReadOnly = some true
    · simp [classify, hro]
    · simp [classify, hro, hs, hnf]

/-- C4: with no classification override, lineage occurrences only in
input shapes give the Spec slot, occurrences only in output shapes give
the Status slot, and occurrences in both an input and an output shape
give the Spec slot. -/
theorem claim4_heuristic_default
    (occs : List FieldOccurrence) (ov : OverrideDirective)
    (hro : ov.isReadOnly = none) (hsr : ov.sourceRedirect = none) :
    ((∀ o ∈ occs, o.role = Role.input) → classify occs ov = .spec) ∧
    (occs ≠ [] → (∀ o ∈ occs, o.role = Role.output) → classify occs ov = .status) ∧
    ((∃ o ∈ occs, o.role = Role.input) → (∃ o ∈ occs, o.role = Role.output) →
      classify occs ov = .spec) := by
  have hcl : classify occs ov = heuristicSlot occs := by
    simp [classify, hro, hsr]
  refine ⟨?_, ?_, ?_⟩
  · intro hall
    rw [hcl]
    cases hin : occs.any fun o => o.role == Role.input with
    | true => simp [heuristicSlot, hin]
    | false =>
        have hout : occs.any (fun o => o.role == Role.output) = false := by
          cases hq : occs.any fun o => o.role == Role.output with
          | false => rfl
          | true =>
              rcases List.any_eq_true.mp hq with ⟨o, ho, hrole⟩
              have : o.role = Role.input := hall o ho
              rw [this] at hrole
              cases hrole
        simp [heuristicSlot, hin, hout]
  · intro hne hall
    rw [hcl]
    have hin : occs.any (fun o => o.role == Role.input) = false := by
      cases hq : occs.any fun o => o.role == Role.input with
      | false => rfl
      | true =>
          rcases List.any_eq_true.mp hq with ⟨o, ho, hrole⟩
          have : o.role = Role.output := hall o ho
          rw [this] at hrole
          cases hrole
    have hout : occs.any (fun o => o.role == Role.output) = true := by
      cases occs with
      | nil => exact absurd rfl hne
      | cons o rest =>
          refine List.any_eq_true.mpr ⟨o, List.mem_cons_self o rest, ?_⟩
          rw [hall o (List.mem_cons_self o rest)]
          rfl
    simp [heuristicSlot, hin, hout]
  · intro hin hout
    rw [hcl]
    rcases hin with ⟨o, ho, hrole⟩
    have : occs.any (fun x => x.role == Role.input) = true :=
      List.any_eq_true.mpr ⟨o, ho, by rw [hrole]; rfl⟩
    simp [heuristicSlot, this]

/-- Witness for C4 on the synthetic two-operation shape graph: the
input-only occurrence list classifies as Spec, the output-only one as
Status, and the mixed one as Spec. -/
theorem claim4_witness :
    classify [codeInputOcc] noOverride = .spec ∧
    classify [codeOutputOcc] noOverride = .status ∧
    classify [codeInputOcc, codeOutputOcc] noOverride = .spec :=
  ⟨(claim4_heuristic_default [codeInputOcc] noOverride rfl rfl).1 (by decide),
   (claim4_heuristic_default [codeOutputOcc] noOverride rfl rfl).2.1 (by decide) (by decide),
   (claim4_heuristic_default [codeInputOcc, codeOutputOcc] noOverride rfl rfl).2.2
     (by decide) (by decide)⟩

/-- The resolved field built from the outcome of the per-field stages. -/
def mkResolvedField (nm : String) (occs : List FieldOccurrence)
    (ov : OverrideDirective) (pk arn : Bool) (li : Option LateInitializeConfig)
    (t0 : TDesc) : ResolvedField :=
  { name := nm
    slot := classify occs ov
    tdesc := if ov.isAttribute = some true then stringType else t0
    isAttributeUnpacked := ov.isAttribute = some true
    isPrimaryKey := pk
    isOwnerAccountID := ov.isOwnerAccountID = some true
    isARN := arn
    isSecret := ov.isSecret = some true
    isImmutable := ov.isImmutable = some true
    isRequired := ov.isRequired
    comparePolicy := attachComparePolicy ov
    presentPolicy := attachPresentPolicy ov
    lateInitPolicy := li }

theorem resolveField_ok_intro (ops : List Operation) (nm : String)
    (occs : List FieldOccurrence) (ov : OverrideDirective) (pk arn : Bool)
    (li : Option LateInitializeConfig) (t0 : TDesc)
    (hc : hasConflictingOverride ov = false)
    (hli : attachLateInitPolicy ov = .ok li)
    (hrt : reconcileType ops occs ov.sourceRedirect = .ok t0) :
    resolveField ops nm occs ov pk arn =
      .ok (mkResolvedField nm occs ov pk arn li t0) := by
  simp only [resolveField, hc, hli, hrt, mkResolvedField]
  simp

theorem resolveField_ok_inv (ops : List Operation) (nm : String)
    (occs : List FieldOccurrence) (ov : OverrideDirective) (pk arn : Bool)
    (rf : ResolvedField)
    (hok : resolveField ops nm occs ov pk arn = .ok rf) :
    hasConflictingOverride ov = false ∧
    ∃ li t0, attachLateInitPolicy ov = .ok li ∧
      reconcileType ops occs ov.sourceRedirect = .ok t0 ∧
      rf = mkResolvedField nm occs ov pk arn li t0 := by
  unfold resolveField at hok
  split at hok
  · cases hok
  · rename_i hc
    constructor
    · cases h : hasConflictingOverride ov
      · rfl
      · exact absurd h hc
    · split at hok
      · cases hok
      · rename_i li hli
        split at hok
        · cases hok
        · rename_i t0 hrt
          injection hok with hok
          exact ⟨li, t0, hli, hrt, hok.symm⟩

/-- C5: a field whose override sets isAttribute resolves to the scalar
string type regardless of the type the Type Reconciler computed from the
shape occurrences, and its slot is the same slot it would have received
without the isAttribute flag. -/
theorem claim5_attribute_unpacking
    (ops : List Operation) (nm : String) (occs : List FieldOccurrence)
    (ov : OverrideDirective) (pk arn : Bool) (rf : ResolvedField)
    (hattr : ov.isAttribute = some true)
    (hok : resolveField ops nm occs ov pk arn = .ok rf) :
    rf.tdesc = stringType ∧
    ∃ rf2, resolveField ops nm occs { ov with isAttribute := none } pk arn = .ok rf2 ∧
      rf2.slot = rf.slot := by
  obtain ⟨hc, li, t0, hli, hrt, hrf⟩ := resolveField_ok_inv ops nm occs ov pk arn rf hok
  constructor
  · rw [hrf]
    simp [mkResolvedField, hattr]
  · have hc2 : hasConflictingOverride { ov with isAttribute := none } = false := hc
    have hli2 : attachLateInitPolicy { ov with isAttribute := none } = .ok li := hli
    have hrt2 : reconcileType ops occs
        ({ ov with isAttribute := none } : OverrideDirective).sourceRedirect = .ok t0 := hrt
    refine ⟨_, resolveField_ok_intro ops nm occs _ pk arn li t0 hc2 hli2 hrt2, ?_⟩
    rw [hrf]
    rfl

/-- An override carrying only the isAttribute flag. -/
def attrDirective : OverrideDirective := { isAttribute := some true }

/-- The resolved field the witness run produces for the attribute field. -/
def attrResolved : ResolvedField :=
  mkResolvedField "Code" [codeInputOcc] attrDirective false false none codeInputType

/-- Witness for C5: the `Code` field with a structured lineage type and
an isAttribute override resolves to the scalar string type, and dropping
the flag leaves its slot unchanged. -/
theorem claim5_witness :
    attrResolved.tdesc = stringType ∧
    ∃ rf2, resolveField sampleOps "Code" [codeInputOcc]
        { attrDirective with isAttribute := none } false false = .ok rf2 ∧
      rf2.slot = attrResolved.slot :=
  claim5_attribute_unpacking sampleOps "Code" [codeInputOcc] attrDirective false false
    attrResolved rfl (by decide)

theorem heuristicAssign_acc (isMatch : String → Bool) (x : String) :
    ∀ names : List String,
      names.foldl
        (fun acc nm =>
          match acc with
          | some _ => acc
          | none => if isMatch nm then some nm else none)
        (some x) = some x := by
  intro names
  induction names with
  | nil => rfl
  | cons n rest ih => simpa using ih

theorem heuristicAssign_eq_find (isMatch : String → Bool) :
    ∀ names : List String, heuristicAssign isMatch names = names.find? isMatch := by
  intro names
  induction names with
  | nil => rfl
  | cons n rest ih =>
      by_cases h : isMatch n = true
      · simp only [heuristicAssign, List.foldl_cons]
        rw [List.find?_cons_of_pos _ h]
        simpa [h] using heuristicAssign_acc isMatch n rest
      · simp only [heuristicAssign, List.foldl_cons] at *
        rw [List.find?_cons_of_neg _ h]
        simpa [h] using ih

theorem resolveEach_flags (ops : List Operation)
    (overrides : List (String × OverrideDirective)) (pk arn : Option String) :
    ∀ (names : List String) (rfs : List ResolvedField),
      resolveEach ops overrides pk arn names = .ok rfs →
      ∀ rf ∈ rfs, rf.isPrimaryKey = (pk == some rf.name) ∧
        rf.isARN = (arn == some rf.name) := by
  intro names
  induction names with
  | nil =>
      intro rfs h rf hrf
      injection h with h
      rw [← h] at hrf
      cases hrf
  | cons nm rest ih =>
      intro rfs h rf hrf
      unfold resolveEach at h
      split at h
      · cases h
      · rename_i rf0 hrf0
        split at h
        · cases h
        · rename_i rfs0 hrfs0
          injection h with h
          rw [← h] at hrf
          rcases List.mem_cons.mp hrf with he | he
          · obtain ⟨_, li, t0, _, _, hmk⟩ :=
              resolveField_ok_inv ops nm (occurrencesOf ops nm)
                (lookupOverride overrides nm) (pk == some nm) (arn == some nm) rf0 hrf0
            subst he
            rw [hmk]
            simp [mkResolvedField]
          · exact ih rfs0 hrfs0 rf he

theorem resolveResource_ok_inv (resource : String) (ops : List Operation)
    (overrides : List (String × OverrideDirective))
    (rfs : List ResolvedField) (ds : List String)
    (hok : resolveResource resource ops overrides = .ok (rfs, ds)) :
    resolveEach ops overrides
      (resolvePrimaryKey resource
        ((fieldNames ops overrides).map fun nm => (nm, lookupOverride overrides nm)))
      (resolveARN resource
        ((fieldNames ops overrides).map fun nm => (nm, lookupOverride overrides nm)))
      (fieldNames ops overrides) = .ok rfs := by
  simp only [resolveResource] at hok
  split at hok
  · cases hok
  · split at hok
    · cases hok
    · split at hok
      · cases hok
      · rename_i rfs0 h0
        injection hok with hok
        injection hok with h1 h2
        rw [← h1]
        exact h0

/-- C6: in any successfully resolved resource at most one resolved field
carries isPrimaryKey and at most one carries isARN; absent an explicit
override the flag goes to the first field in shape-declaration order
whose name matches the heuristic pattern (later matches ignored), and an
explicit override disables the heuristic and names the flagged field
itself, wherever it sits. -/
theorem claim6_singleton_flags
    (resource : String) (ops : List Operation)
    (overrides : List (String × OverrideDirective))
    (rfs : List ResolvedField) (ds : List String)
    (hok : resolveResource resource ops overrides = .ok (rfs, ds)) :
    (∀ rf1 ∈ rfs, ∀ rf2 ∈ rfs, rf1.isPrimaryKey = true → rf2.isPrimaryKey = true →
      rf1.name = rf2.name) ∧
    (∀ rf1 ∈ rfs, ∀ rf2 ∈ rfs, rf1.isARN = true → rf2.isARN = true →
      rf1.name = rf2.name) ∧
    (∀ res2 fields, (∀ f ∈ fields, f.2.isPrimaryKey ≠ some true) →
      resolvePrimaryKey res2 fields =
        (fields.map fun f => f.1).find? (matchesPrimaryKeyName res2)) ∧
    (∀ res2 fields f, fields.find? (fun g => g.2.isPrimaryKey = some true) = some f →
      resolvePrimaryKey res2 fields = some f.1) ∧
    (∀ res2 fields, (∀ f ∈ fields, f.2.isARN ≠ some true) →
      resolveARN res2 fields =
        (fields.map fun f => f.1).find? (matchesARNName res2)) ∧
    (∀ res2 fields f, fields.find? (fun g => g.2.isARN = some true) = some f →
      resolveARN res2 fields = some f.1) := by
  have hre := resolveResource_ok_inv resource ops overrides rfs ds hok
  have hflags := resolveEach_flags ops overrides _ _ _ rfs hre
  refine ⟨?_, ?_, ?_, ?_, ?_, ?_⟩
  · intro rf1 h1 rf2 h2 hp1 hp2
    have q1 : _ = some rf1.name := eq_of_beq (((hflags rf1 h1).1).symm.trans hp1)
    have q2 : _ = some rf2.name := eq_of_beq (((hflags rf2 h2).1).symm.trans hp2)
    injection q1.symm.trans q2
  · intro rf1 h1 rf2 h2 hp1 hp2
    have q1 : _ = some rf1.name := eq_of_beq (((hflags rf1 h1).2).symm.trans hp1)
    have q2 : _ = some rf2.name := eq_of_beq (((hflags rf2 h2).2).symm.trans hp2)
    injection q1.symm.trans q2
  · intro res2 fields hno
    unfold resolvePrimaryKey
    have hnone : (fields.find? fun f => f.2.isPrimaryKey = some true) = none := by
      rw [List.find?_eq_none]
      intro x hx
      simpa using hno x hx
    rw [hnone]
    exact heuristicAssign_eq_find _ _
  · intro res2 fields f hf
    unfold resolvePrimaryKey
    rw [hf]
  · intro res2 fields hno
    unfold resolveARN
    have hnone : (fields.find? fun f => f.2.isARN = some true) = none := by
      rw [List.find?_eq_none]
      intro x hx
      simpa using hno x hx
    rw [hnone]
    exact heuristicAssign_eq_find _ _
  · intro res2 fields f hf
    unfold resolveARN
    rw [hf]

/-- The two candidate fields of the first-match scenario, in
shape-declaration order, with no override. -/
def fooFieldsPlain : List (String × OverrideDirective) :=
  [("Name", noOverride), ("FooName", noOverride)]

/-- The same two candidates with an explicit isPrimaryKey override on
the second. -/
def fooFieldsExplicit : List (String × OverrideDirective) :=
  [("Name", noOverride), ("FooName", { isPrimaryKey := some true })]

/-- Witness for C6: for resource `Foo` with candidates `Name` and
`FooName` in that order, the heuristic picks `Name` (first match wins),
and an explicit override on `FooName` relocates the flag there. -/
theorem claim6_witness :
    resolvePrimaryKey "Foo" fooFieldsPlain = some "Name" ∧
    resolvePrimaryKey "Foo" fooFieldsExplicit = some "FooName" :=
  have h6 := claim6_singleton_flags "Foo" [] [] [] [] rfl
  ⟨(h6.2.2.1 "Foo" fooFieldsPlain (by decide)).trans (by decide),
   h6.2.2.2.1 "Foo" fooFieldsExplicit ("FooName", { isPrimaryKey := some true })
     (by decide)⟩

/-- C7: an override that sets the comparison policy's isIgnored together
with any presentation override makes resolution fail with a
ConflictingOverride error instead of producing a resolved field. -/
theorem claim7_conflicting_override
    (ops : List Operation) (nm : String) (occs : List FieldOccurrence)
    (ov : OverrideDirective) (pk arn : Bool)
    (c : CompareFieldConfig) (p : PrintFieldConfig)
    (hc : ov.comparePolicy = some c) (hig : c.isIgnored = true)
    (hp : ov.presentPolicy = some p) :
    resolveField ops nm occs ov pk arn = .error .ConflictingOverride := by
  have hco : hasConflictingOverride ov = true := by
    simp [hasConflictingOverride, hc, hig, hp]
  simp [resolveField, hco]

/-- An override combining an ignored comparison policy with a
presentation policy. -/
def conflictDirective : OverrideDirective :=
  { comparePolicy := some { isIgnored := true, nilEqualsZeroValue := false }
    presentPolicy := some { name := "LOCATION", priority := 0, index := 0 } }

/-- Witness for C7: the conflicting directive fails on a concrete
field. -/
theorem claim7_witness :
    resolveField sampleOps "Name" (occurrencesOf sampleOps "Name") conflictDirective
      false false = .error .ConflictingOverride :=
  claim7_conflicting_override sampleOps "Name" (occurrencesOf sampleOps "Name")
    conflictDirective false false
    { isIgnored := true, nilEqualsZeroValue := false }
    { name := "LOCATION", priority := 0, index := 0 } rfl rfl rfl

/-- C8: a late-initialization override with maxBackoffSeconds strictly
below minBackoffSeconds fails with an InvalidBackoffBounds error (also
through full field resolution when no conflicting override pre-empts
it); with ordered bounds the attached policy is exactly the given bound
pair, unchanged — the attacher performs no backoff arithmetic. -/
theorem claim8_backoff_bounds
    (ov : OverrideDirective) (li : LateInitializeConfig)
    (hli : ov.lateInitPolicy = some li) :
    (li.maxBackoffSeconds < li.minBackoffSeconds →
      attachLateInitPolicy ov = .error .InvalidBackoffBounds ∧
      ∀ ops nm occs pk arn, hasConflictingOverride ov = false →
        resolveField ops nm occs ov pk arn = .error .InvalidBackoffBounds) ∧
    (li.minBackoffSeconds ≤ li.maxBackoffSeconds →
      attachLateInitPolicy ov = .ok (some li)) := by
  constructor
  · intro hlt
    have ha : attachLateInitPolicy ov = .error .InvalidBackoffBounds := by
      simp [attachLateInitPolicy, hli, hlt]
    refine ⟨ha, ?_⟩
    intro ops nm occs pk arn hnc
    simp [resolveField, hnc, ha]
  · intro hle
    simp [attachLateInitPolicy, hli, not_lt.mpr hle]

/-- Backoff bounds with the maximum below the minimum. -/
def badBackoff : LateInitializeConfig := { minBackoffSeconds := 5, maxBackoffSeconds := 2 }

/-- Ordered backoff bounds. -/
def goodBackoff : LateInitializeConfig := { minBackoffSeconds := 2, maxBackoffSeconds := 5 }

/-- Witness for C8: inverted bounds fail, ordered bounds are attached
exactly as given. -/
theorem claim8_witness :
    attachLateInitPolicy { lateInitPolicy := some badBackoff } =
      .error .InvalidBackoffBounds ∧
    resolveField sampleOps "Name" (occurrencesOf sampleOps "Name")
      { lateInitPolicy := some badBackoff } false false =
      .error .InvalidBackoffBounds ∧
    attachLateInitPolicy { lateInitPolicy := some goodBackoff } = .ok (some goodBackoff) :=
  have hbad := claim8_backoff_bounds { lateInitPolicy := some badBackoff } badBackoff rfl
  have hgood := claim8_backoff_bounds { lateInitPolicy := some goodBackoff } goodBackoff rfl
  ⟨(hbad.1 (by decide)).1,
   (hbad.1 (by decide)).2 sampleOps "Name" (occurrencesOf sampleOps "Name") false false rfl,
   hgood.2 (by decide)⟩

/-- C9: resolution is a deterministic function of the Shape Graph and
Override Table — identical inputs produce identical Resolved Field Sets
(including ordering) and identical diagnostic sequences. -/
theorem claim9_determinism
    (r1 r2 : String) (ops1 ops2 : List Operation)
    (ovs1 ovs2 : List (String × OverrideDirective))
    (hr : r1 = r2) (hops : ops1 = ops2) (hovs : ovs1 = ovs2) :
    resolveResource r1 ops1 ovs1 = resolveResource r2 ops2 ovs2 := by
  subst hr
  subst hops
  subst hovs
  rfl

/-- The override table of the end-to-end scenario. -/
def sampleOverrides : List (String × OverrideDirective) :=
  [("CodeLocation", { isReadOnly := some true, sourceRedirect := some codeRedirect }),
   ("Code", { sourceRedirect := some { operation := "CreateFunction", path := "Code" } })]

/-- Witness for C9 at the end-to-end scenario's inputs. -/
theorem claim9_witness :
    resolveResource "Function" sampleOps sampleOverrides =
      resolveResource "Function" sampleOps sampleOverrides :=
  claim9_determinism "Function" "Function" sampleOps sampleOps
    sampleOverrides sampleOverrides rfl rfl rfl

/-- C10: in the `FieldConfig` schema every boolean directive except
IsRequired is a plain two-valued boolean whose absent (zero-value) state
is identical to false — an explicitly-false override is unrepresentable
for them — while IsRequired is nullable and distinguishes an explicit
false from unset, and the zero-valued FieldConfig carries no override at
all (all flags false, all four policy bundles absent). -/
theorem claim10_schema_nullability :
    (emptyFieldConfig.IsAttribute = false ∧ emptyFieldConfig.IsReadOnly = false ∧
     emptyFieldConfig.IsPrimaryKey = false ∧ emptyFieldConfig.IsOwnerAccountID = false ∧
     emptyFieldConfig.IsARN = false ∧ emptyFieldConfig.IsSecret = false ∧
     emptyFieldConfig.IsImmutable = false ∧ emptyFieldConfig.IsRequired = none ∧
     emptyFieldConfig.From = none ∧ emptyFieldConfig.Compare = none ∧
     emptyFieldConfig.Print = none ∧ emptyFieldConfig.LateInitialize = none) ∧
    (∀ fc : FieldConfig,
      (fc.IsAttribute = true ∨ fc.IsAttribute = emptyFieldConfig.IsAttribute) ∧
      (fc.IsReadOnly = true ∨ fc.IsReadOnly = emptyFieldConfig.IsReadOnly) ∧
      (fc.IsPrimaryKey = true ∨ fc.IsPrimaryKey = emptyFieldConfig.IsPrimaryKey) ∧
      (fc.IsOwnerAccountID = true ∨ fc.IsOwnerAccountID = emptyFieldConfig.IsOwnerAccountID) ∧
      (fc.IsARN = true ∨ fc.IsARN = emptyFieldConfig.IsARN) ∧
      (fc.IsSecret = true ∨ fc.IsSecret = emptyFieldConfig.IsSecret) ∧
      (fc.IsImmutable = true ∨ fc.IsImmutable = emptyFieldConfig.IsImmutable)) ∧
    (∃ fc : FieldConfig, fc.IsRequired = some false ∧
      fc.IsRequired ≠ emptyFieldConfig.IsRequired) := by
  refine ⟨⟨rfl, rfl, rfl, rfl, rfl, rfl, rfl, rfl, rfl, rfl, rfl, rfl⟩, ?_, ?_⟩
  · intro fc
    exact ⟨Bool.eq_false_or_eq_true _, Bool.eq_false_or_eq_true _,
      Bool.eq_false_or_eq_true _, Bool.eq_false_or_eq_true _,
      Bool.eq_false_or_eq_true _, Bool.eq_false_or_eq_true _,
      Bool.eq_false_or_eq_true _⟩
  · exact ⟨{ IsRequired := some false }, rfl, by simp [emptyFieldConfig]⟩
